/-
  Verification of the TracePulse Event Correlation & Hypothesis Engine.

  Shallow embedding of the core pipeline:
  - `packages/tracepulse/src/lib/systemMap.ts`
      (`findServiceDependencies`, `findDependents`, `analyzeImpact`)
  - `packages/tracepulse/src/services/eventProcessor.ts`
      (`processEvents` correlation-key derivation, `processCorrelatedEvents`)
  - `services/ai.ts` (`analyzeEvent`, `generateHypotheses`,
      `getFallbackHypotheses`, `generateSummary`)

  Conventions of the embedding:
  - JS objects `Record<string, T>` become association lists with unique keys;
    lookup `obj[k]` becomes first-match search (`findService`).
  - JS `Set` iteration order is insertion order; `[...new Set(xs)]` becomes
    `jsSetDedup xs` (keep first occurrence).
  - JS falsy-default idioms `x || d` on strings and numbers become
    `jsOrStr` / `jsOrInt` (empty string and 0 are falsy).
  - The recursion of `findServiceDependencies` and the BFS while-loop of
    `analyzeImpact` are embedded with an explicit fuel parameter that is
    chosen large enough (each productive step consumes an unvisited name, and
    names are drawn from the finite map); general theorems are proved for
    every fuel value, so they hold in particular at the chosen fuel.
  - External I/O (the OpenAI call, GitHub diff fetch, Date.now, clock) is
    passed in as explicit parameters; the generator outcome is
    `Option GenResponse` with `none` standing for any failure of the call
    (network error, thrown exception, unparseable JSON).
-/
import Mathlib

namespace TracePulse

/-- One service node of the system map (`SystemMapService` in types/index.ts);
only `depends_on` is read by the analysis code, and it is optional. -/
structure SystemMapService where
  depends_on : Option (List String)
deriving DecidableEq

/-- The system map: `services: Record<string, SystemMapService>` as an
association list (JS object keys are unique; theorems that need this carry a
`Nodup` hypothesis on the key list). -/
structure SystemMap where
  services : List (String × SystemMapService)
deriving DecidableEq

/-- JS property lookup `systemMap.services[serviceName]`: first entry with the
given key. -/
def findService (m : SystemMap) (name : String) : Option SystemMapService :=
  (m.services.find? (fun p => decide (p.1 = name))).map Prod.snd

/-- `[...new Set(xs)]`: deduplicate keeping the first occurrence of each
element (JS `Set` preserves insertion order). -/
def jsSetDedup (xs : List String) : List String :=
  List.foldl (fun acc x => if x ∈ acc then acc else acc ++ [x]) [] xs

/-- Fuel-indexed embedding of `findServiceDependencies` (systemMap.ts lines
75-99).  The JS function recurses with a shared mutable `visited` set; here
the visited list is threaded through the fold and returned.  Result: first
component is the returned dependency list, second the final visited list.

```
if (visited.has(serviceName)) return [];
visited.add(serviceName);
const service = systemMap.services[serviceName];
if (!service || !service.depends_on) return [];
const dependencies = [...service.depends_on];
for (const dep of service.depends_on)
  dependencies.push(...findServiceDependencies(dep, systemMap, visited));
return [...new Set(dependencies)];
```
-/
def fsdAux (m : SystemMap) : Nat → String → List String → List String × List String
  | 0, _, visited => ([], visited)
  | Nat.succ fuel, serviceName, visited =>
    if serviceName ∈ visited then ([], visited)
    else
      match findService m serviceName with
      | none => ([], serviceName :: visited)
      | some service =>
        match service.depends_on with
        | none => ([], serviceName :: visited)
        | some deps =>
          (jsSetDedup (List.foldl
              (fun acc dep =>
                ((acc.1 ++ (fsdAux m fuel dep acc.2).1), (fsdAux m fuel dep acc.2).2))
              (deps, serviceName :: visited) deps).1,
           (List.foldl
              (fun acc dep =>
                ((acc.1 ++ (fsdAux m fuel dep acc.2).1), (fsdAux m fuel dep acc.2).2))
              (deps, serviceName :: visited) deps).2)

/-- Sufficient fuel for `fsdAux`: every call that recurses adds one name not
yet visited, and all such names are keys of the map or entries of some
`depends_on` list, so the recursion depth is bounded by this count. -/
def fsdFuel (m : SystemMap) : Nat :=
  m.services.length + (m.services.map (fun p => (p.2.depends_on.getD []).length)).sum + 2

/-- `findServiceDependencies(serviceName, systemMap)` with a fresh empty
visited set, as called from `analyzeImpact`. -/
def findServiceDependencies (serviceName : String) (m : SystemMap) : List String :=
  (fsdAux m (fsdFuel m) serviceName []).1

/-- `findDependents` (systemMap.ts lines 101-114): names of the entries whose
`depends_on` list contains `serviceName`, in map order (one hop only). -/
def findDependents (serviceName : String) (m : SystemMap) : List String :=
  (m.services.filter (fun p => decide (serviceName ∈ p.2.depends_on.getD []))).map Prod.fst

/-- One step of the BFS inner loop of `analyzeImpact`: `acc.1` is the seen set
(in insertion order), `acc.2` the queue; a dependent not yet seen is appended
to both. -/
def bfsStep (acc : List String × List String) (dep : String) : List String × List String :=
  if dep ∈ acc.1 then acc else (acc.1 ++ [dep], acc.2 ++ [dep])

/-- Fuel-indexed embedding of the `while (queue.length > 0)` loop of
`analyzeImpact` (systemMap.ts lines 131-141); returns the seen set in
insertion order (`Array.from` of a JS `Set`). -/
def bfsDependentsAux (m : SystemMap) : Nat → List String → List String → List String
  | 0, seen, _ => seen
  | Nat.succ _, seen, [] => seen
  | Nat.succ fuel, seen, current :: queue =>
    bfsDependentsAux m fuel
      (List.foldl bfsStep (seen, queue) (findDependents current m)).1
      (List.foldl bfsStep (seen, queue) (findDependents current m)).2

/-- Sufficient fuel for the BFS: each iteration pops one queue element, and at
most one element per map key is ever enqueued beyond the initial queue. -/
def bfsFuel (m : SystemMap) (direct : List String) : Nat :=
  m.services.length + direct.length + 1

/-- The impact record returned by `analyzeImpact`. -/
structure ImpactResult where
  directDependents : List String
  allDependents : List String
  dependencies : List String
deriving DecidableEq

/-- `analyzeImpact` (systemMap.ts lines 116-148): direct dependents, the BFS
closure of dependents (seen set initialised with `new Set(directDependents)`,
queue with `[...directDependents]`), and transitive dependencies. -/
def analyzeImpact (affectedService : String) (m : SystemMap) : ImpactResult :=
  { directDependents := findDependents affectedService m
    allDependents :=
      bfsDependentsAux m (bfsFuel m (findDependents affectedService m))
        (jsSetDedup (findDependents affectedService m))
        (findDependents affectedService m)
    dependencies := findServiceDependencies affectedService m }

/-! ## Events and the processing pipeline -/

/-- Severity levels (`z.enum(['debug','info','warn','error','critical'])`). -/
inductive Level
  | debug | info | warn | error | critical
deriving DecidableEq

/-- Priorities (`z.enum(['low','medium','high'])`). -/
inductive Priority
  | low | medium | high
deriving DecidableEq

/-- A webhook event (`WebhookEventSchema` in types/index.ts), restricted to the
fields the analysis pipeline reads.  `detailsService` is `event.details.service`
(the only details field read by `analyzeEvent`); the free-form remainder of
`details` and of `metadata` never influences any modelled output. -/
structure WebhookEvent where
  eventType : String
  correlationId : Option String
  service : Option String
  level : Option Level
  priority : Option Priority
  timestamp : Option String
  detailsService : Option String
  errorCode : Option String
deriving DecidableEq

/-- JS `x || d` for an optional string field: `undefined` and the empty string
are falsy. -/
def jsOrStr (v : Option String) (d : String) : String :=
  match v with
  | none => d
  | some s => if s = "" then d else s

/-- JS `x || d` for an optional numeric field: `undefined` and `0` are falsy
(JS `NaN` is not modelled; no modelled code produces it). -/
def jsOrInt (v : Option Int) (d : Int) : Int :=
  match v with
  | none => d
  | some n => if n = 0 then d else n

/-- A typed evidence item (`HypothesisEvidence`).  The parser does not validate
the `type` string against the declared union, so it is modelled as `String`. -/
structure HypothesisEvidence where
  type : String
  source : String
  detail : String
  confidence : Int
deriving DecidableEq

/-- A hypothesis record (`Hypothesis` in types/index.ts). -/
structure Hypothesis where
  id : String
  title : String
  description : String
  confidence : Int
  evidence : List HypothesisEvidence
  suggestedActions : List String
  relatedServices : List String
deriving DecidableEq

/-- One raw evidence item as found in the parsed generator JSON: every field
may be absent. -/
structure RawEvidence where
  type : Option String
  source : Option String
  detail : Option String
  confidence : Option Int
deriving DecidableEq

/-- One raw hypothesis as found in the parsed generator JSON. -/
structure RawHypothesis where
  title : Option String
  description : Option String
  confidence : Option Int
  evidence : Option (List RawEvidence)
  suggestedActions : Option (List String)
  relatedServices : Option (List String)
deriving DecidableEq

/-- A successfully parsed generator response: `JSON.parse(content || '{}')`
followed by `result.hypotheses || []`; the `hypotheses` key may be absent. -/
structure GenResponse where
  hypotheses : Option (List RawHypothesis)
deriving DecidableEq

/-- Field-by-field repair of one raw evidence item (ai.ts lines 155-160):
`e.type || 'log'`, `e.source || 'unknown'`, `e.detail || ''`,
`e.confidence || 50`. -/
def parseEvidence (e : RawEvidence) : HypothesisEvidence :=
  { type := jsOrStr e.type "log"
    source := jsOrStr e.source "unknown"
    detail := jsOrStr e.detail ""
    confidence := jsOrInt e.confidence 50 }

/-- Field-by-field repair of one raw hypothesis (ai.ts lines 150-163); `now`
is `Date.now()` and `index` the position in the generator list. -/
def parseHypothesis (now : Nat) (index : Nat) (h : RawHypothesis) : Hypothesis :=
  { id := "hyp-" ++ toString now ++ "-" ++ toString index
    title := jsOrStr h.title "Unknown Issue"
    description := jsOrStr h.description ""
    confidence := jsOrInt h.confidence 50
    evidence := (h.evidence.getD []).map parseEvidence
    suggestedActions := h.suggestedActions.getD []
    relatedServices := h.relatedServices.getD [] }

/-- `getFallbackHypotheses` (ai.ts lines 170-190): the single deterministic
rule-based hypothesis returned when the generator call fails.  The JS function
receives the context string but never reads it. -/
def getFallbackHypotheses (now : Nat) : List Hypothesis :=
  [{ id := "hyp-" ++ toString now ++ "-0"
     title := "Service Dependency Failure"
     description := "The failure appears to be related to a service dependency issue based on the error pattern."
     confidence := 60
     evidence := [{ type := "log"
                    source := "Event Analysis"
                    detail := "Critical error detected in service communication"
                    confidence := 70 }]
     suggestedActions := ["Check service health endpoints",
                          "Review recent deployments",
                          "Examine service logs for connection errors"]
     relatedServices := [] }]

/-- `generateHypotheses` (ai.ts lines 117-168): on any failure of the external
call or of JSON parsing (`outcome = none`) return the fallback; on success map
the raw list through the field repair. -/
def generateHypotheses (now : Nat) (outcome : Option GenResponse) : List Hypothesis :=
  match outcome with
  | none => getFallbackHypotheses now
  | some resp => (resp.hypotheses.getD []).mapIdx (fun i h => parseHypothesis now i h)

/-- Insert one hypothesis into a descending-by-confidence list, after every
element with strictly greater confidence and before the first with less-or-
equal confidence. -/
def insertByConfidence (h : Hypothesis) : List Hypothesis → List Hypothesis
  | [] => [h]
  | x :: xs => if h.confidence < x.confidence then x :: insertByConfidence h xs
               else h :: x :: xs

/-- `hypotheses.sort((a, b) => b.confidence - a.confidence)`: JS
`Array.prototype.sort` is stable (ES2019), and a stable sort by a total
preorder has a unique result, produced by this insertion sort: descending
confidence, ties in original order. -/
def sortByConfidenceDesc (l : List Hypothesis) : List Hypothesis :=
  List.foldr insertByConfidence [] l

/-- `generateSummary` (ai.ts lines 192-199) applied to the already-sorted
list: the JS function performs the sort itself, in place, on the array that
the report aliases; the sorting is factored out in `analyzeEvent` below.
`topHypothesis?.title || 'Unknown'` and `topHypothesis?.confidence || 0` keep
their JS falsy semantics. -/
def generateSummary (event : WebhookEvent) (sorted : List Hypothesis) : String :=
  "Critical " ++ event.eventType ++ " event detected in " ++
    jsOrStr event.service "unknown service" ++ ". " ++
    "Most likely cause: " ++ jsOrStr ((sorted.head?).map Hypothesis.title) "Unknown" ++ " " ++
    "(" ++ toString (jsOrInt ((sorted.head?).map Hypothesis.confidence) 0) ++ "% confidence). " ++
    toString sorted.length ++ " hypotheses generated for investigation."

/-- The analysis report (`AnalysisReport` in types/index.ts). -/
structure AnalysisReport where
  correlationId : String
  eventType : String
  timestamp : String
  hypotheses : List Hypothesis
  affectedServices : List String
  summary : String
deriving DecidableEq

/-- The analysis context handed to `analyzeEvent` (ai.ts lines 20-25), minus
the I/O-provided `recentDiffs` which never influences a modelled output. -/
structure AnalysisContext where
  relatedEvents : List WebhookEvent
  systemMap : SystemMap
  environment : Option String
deriving DecidableEq

/-- `analyzeEvent` (ai.ts lines 27-71).  `genOutcome` is the outcome of the
external generator call, `now` is `Date.now()` at hypothesis-parse time, and
`tsNow` is `new Date().toISOString()`.  The JS code builds the report with the
unsorted hypotheses array and then `generateSummary` sorts that same array in
place (`Array.prototype.sort` mutates), so the report carries the sorted
list.  The affected service falls back from `event.service` to
`event.details.service` to `'Unknown'`; the affected-services list is
`[affectedService, ...impact.allDependents]` with no deduplication. -/
def analyzeEvent (event : WebhookEvent) (ctx : AnalysisContext)
    (genOutcome : Option GenResponse) (now : Nat) (tsNow : String) : AnalysisReport :=
  { correlationId := jsOrStr event.correlationId "unknown"
    eventType := event.eventType
    timestamp := tsNow
    hypotheses := sortByConfidenceDesc (generateHypotheses now genOutcome)
    affectedServices :=
      jsOrStr event.service (jsOrStr event.detailsService "Unknown") ::
        (analyzeImpact (jsOrStr event.service (jsOrStr event.detailsService "Unknown"))
          ctx.systemMap).allDependents
    summary := generateSummary event (sortByConfidenceDesc (generateHypotheses now genOutcome)) }

/-- The critical-subset filter of `processCorrelatedEvents`
(eventProcessor.ts lines 42-46): priority high, or level error or critical. -/
def isCriticalEvent (e : WebhookEvent) : Bool :=
  decide (e.priority = some Priority.high) ||
  decide (e.level = some Level.error) ||
  decide (e.level = some Level.critical)

/-- `processCorrelatedEvents` (eventProcessor.ts lines 36-84): when the
critical subset is empty the group is skipped (`none`, logged only) and
neither impact analysis nor hypothesis generation runs; otherwise
`analyzeEvent` is called on the first critical event with the full group as
related events and its report is the produced result. -/
def processCorrelatedEvents (events : List WebhookEvent) (m : SystemMap)
    (environment : Option String) (genOutcome : Option GenResponse)
    (now : Nat) (tsNow : String) : Option AnalysisReport :=
  match events.filter isCriticalEvent with
  | [] => none
  | first :: _ =>
    some (analyzeEvent first
      { relatedEvents := events, systemMap := m, environment := environment }
      genOutcome now tsNow)

/-- Correlation-group key derivation of `processEvents`
(eventProcessor.ts line 16): `event.correlationId || 'uncorrelated'`. -/
def groupCorrelationKey (e : WebhookEvent) : String :=
  jsOrStr e.correlationId "uncorrelated"

/-! ## Reachability over the depends_on relation -/

/-- One `depends_on` edge: the node `a` is declared and its `depends_on` list
contains `b`. -/
def dependsEdge (m : SystemMap) (a b : String) : Prop :=
  match findService m a with
  | none => False
  | some svc => b ∈ svc.depends_on.getD []

/-- `b` is reachable from `a` through one or more `depends_on` edges.  A
dependency cycle through `s` is `Reaches m s s`. -/
inductive Reaches (m : SystemMap) : String → String → Prop
  | single {a b : String} : dependsEdge m a b → Reaches m a b
  | head {a b c : String} : dependsEdge m a b → Reaches m b c → Reaches m a c

/-! ## Helper lemmas about the graph functions -/

lemma mem_dedupFold (x : String) :
    ∀ (xs acc : List String),
      x ∈ List.foldl (fun acc y => if y ∈ acc then acc else acc ++ [y]) acc xs →
      x ∈ acc ∨ x ∈ xs := by
  intro xs
  induction xs with
  | nil => intro acc h; exact Or.inl h
  | cons y ys ih =>
    intro acc h
    simp only [List.foldl_cons] at h
    rcases ih _ h with hmem | hmem
    · by_cases hy : y ∈ acc
      · rw [if_pos hy] at hmem; exact Or.inl hmem
      · rw [if_neg hy] at hmem
        rcases List.mem_append.mp hmem with h1 | h1
        · exact Or.inl h1
        · simp only [List.mem_singleton] at h1
          exact Or.inr (h1 ▸ List.mem_cons_self y ys)
    · exact Or.inr (List.mem_cons_of_mem _ hmem)

lemma mem_jsSetDedup {x : String} {xs : List String} (h : x ∈ jsSetDedup xs) : x ∈ xs := by
  unfold jsSetDedup at h
  rcases mem_dedupFold x xs [] h with h1 | h1
  · simp at h1
  · exact h1

lemma dedupFold_nodup :
    ∀ (xs acc : List String), acc.Nodup →
      (List.foldl (fun acc y => if y ∈ acc then acc else acc ++ [y]) acc xs).Nodup := by
  intro xs
  induction xs with
  | nil => intro acc h; exact h
  | cons y ys ih =>
    intro acc h
    simp only [List.foldl_cons]
    apply ih
    by_cases hy : y ∈ acc
    · rw [if_pos hy]; exact h
    · rw [if_neg hy]
      simp [List.nodup_append, h, hy]

lemma jsSetDedup_nodup (xs : List String) : (jsSetDedup xs).Nodup :=
  dedupFold_nodup xs [] List.nodup_nil

lemma fsdFold_mem (m : SystemMap) (fuel : Nat) (x : String) :
    ∀ (l : List String) (acc : List String × List String),
      x ∈ (List.foldl
            (fun acc dep =>
              ((acc.1 ++ (fsdAux m fuel dep acc.2).1), (fsdAux m fuel dep acc.2).2))
            acc l).1 →
      x ∈ acc.1 ∨ ∃ d, d ∈ l ∧ ∃ v, x ∈ (fsdAux m fuel d v).1 := by
  intro l
  induction l with
  | nil => intro acc h; exact Or.inl h
  | cons d ds ih =>
    intro acc h
    simp only [List.foldl_cons] at h
    rcases ih _ h with hmem | hex
    · rcases List.mem_append.mp hmem with h1 | h1
      · exact Or.inl h1
      · exact Or.inr ⟨d, List.mem_cons_self d ds, acc.2, h1⟩
    · rcases hex with ⟨d2, hd2, v, hv⟩
      exact Or.inr ⟨d2, List.mem_cons_of_mem _ hd2, v, hv⟩

lemma fsdAux_mem_reaches (m : SystemMap) :
    ∀ (fuel : Nat) (name : String) (visited : List String) (x : String),
      x ∈ (fsdAux m fuel name visited).1 → Reaches m name x := by
  intro fuel
  induction fuel with
  | zero => intro name visited x h; simp [fsdAux] at h
  | succ fuel ih =>
    intro name visited x h
    rw [fsdAux] at h
    by_cases hv : name ∈ visited
    · rw [if_pos hv] at h; simp at h
    · rw [if_neg hv] at h
      split at h
      · simp at h
      · rename_i service hfind
        split at h
        · simp at h
        · rename_i deps hdep
          simp only at h
          have hx := mem_jsSetDedup h
          have hedge : ∀ d ∈ deps, dependsEdge m name d := by
            intro d hd
            unfold dependsEdge
            rw [hfind]
            show d ∈ service.depends_on.getD []
            rw [hdep]
            exact hd
          rcases fsdFold_mem m fuel x deps (deps, name :: visited) hx with h1 | h1
          · exact Reaches.single (hedge x h1)
          · rcases h1 with ⟨d, hd, v, hrec⟩
            exact Reaches.head (hedge d hd) (ih d v x hrec)

lemma find_entry_of_nodup :
    ∀ (l : List (String × SystemMapService)),
      (l.map Prod.fst).Nodup → ∀ p ∈ l, l.find? (fun q => decide (q.1 = p.1)) = some p := by
  intro l
  induction l with
  | nil => intro _ p hp; simp at hp
  | cons a as ih =>
    intro hnodup p hp
    simp only [List.map_cons, List.nodup_cons] at hnodup
    rcases List.mem_cons.mp hp with rfl | hmem
    · exact List.find?_cons_of_pos _ (by simp)
    · have hne : ¬ (a.1 = p.1) := by
        intro he
        exact hnodup.1 (he ▸ List.mem_map_of_mem Prod.fst hmem)
      rw [List.find?_cons_of_neg _ (by simpa using hne)]
      exact ih hnodup.2 p hmem

lemma findService_of_mem (m : SystemMap) (hkeys : (m.services.map Prod.fst).Nodup)
    (p : String × SystemMapService) (hp : p ∈ m.services) :
    findService m p.1 = some p.2 := by
  unfold findService
  rw [find_entry_of_nodup m.services hkeys p hp]
  rfl

lemma findService_eq_none (m : SystemMap) (s : String)
    (hs : s ∉ m.services.map Prod.fst) : findService m s = none := by
  unfold findService
  have hnone : m.services.find? (fun p => decide (p.1 = s)) = none := by
    rw [List.find?_eq_none]
    intro p hp hdec
    apply hs
    have hmem := List.mem_map_of_mem Prod.fst hp
    rwa [of_decide_eq_true hdec] at hmem
  rw [hnone]
  rfl

lemma findDependents_edge (m : SystemMap) (hkeys : (m.services.map Prod.fst).Nodup)
    (s x : String) (hx : x ∈ findDependents s m) : dependsEdge m x s := by
  unfold findDependents at hx
  rcases List.mem_map.mp hx with ⟨p, hpmem, rfl⟩
  have hpfilter := List.mem_filter.mp hpmem
  have hdep : s ∈ p.2.depends_on.getD [] := of_decide_eq_true hpfilter.2
  unfold dependsEdge
  rw [findService_of_mem m hkeys p hpfilter.1]
  exact hdep

lemma findDependents_nodup (m : SystemMap) (hkeys : (m.services.map Prod.fst).Nodup)
    (s : String) : (findDependents s m).Nodup := by
  unfold findDependents
  exact List.Nodup.sublist (List.Sublist.map Prod.fst (List.filter_sublist _)) hkeys

lemma bfsFold_inv (R : String → Prop) :
    ∀ (l : List String) (acc : List String × List String),
      (∀ x ∈ acc.1, R x) → (∀ x ∈ acc.2, R x) → (∀ x ∈ l, R x) →
      (∀ x ∈ (List.foldl bfsStep acc l).1, R x) ∧
      (∀ x ∈ (List.foldl bfsStep acc l).2, R x) := by
  intro l
  induction l with
  | nil => intro acc h1 h2 _; exact ⟨h1, h2⟩
  | cons d ds ih =>
    intro acc h1 h2 h3
    simp only [List.foldl_cons]
    have hd : R d := h3 d (List.mem_cons_self d ds)
    apply ih
    · intro x hx
      unfold bfsStep at hx
      split at hx
      · exact h1 x hx
      · rcases List.mem_append.mp hx with h | h
        · exact h1 x h
        · simp only [List.mem_singleton] at h; exact h ▸ hd
    · intro x hx
      unfold bfsStep at hx
      split at hx
      · exact h2 x hx
      · rcases List.mem_append.mp hx with h | h
        · exact h2 x h
        · simp only [List.mem_singleton] at h; exact h ▸ hd
    · intro x hx; exact h3 x (List.mem_cons_of_mem _ hx)

lemma bfs_inv (m : SystemMap) (R : String → Prop)
    (hR : ∀ c x, R c → x ∈ findDependents c m → R x) :
    ∀ (fuel : Nat) (seen queue : List String),
      (∀ x ∈ seen, R x) → (∀ x ∈ queue, R x) →
      ∀ x ∈ bfsDependentsAux m fuel seen queue, R x := by
  intro fuel
  induction fuel with
  | zero => intro seen queue h1 _ x hx; rw [bfsDependentsAux] at hx; exact h1 x hx
  | succ fuel ih =>
    intro seen queue h1 h2 x hx
    cases queue with
    | nil => rw [bfsDependentsAux] at hx; exact h1 x hx
    | cons current rest =>
      rw [bfsDependentsAux] at hx
      have hcur : R current := h2 current (List.mem_cons_self current rest)
      have hrest : ∀ y ∈ rest, R y := fun y hy => h2 y (List.mem_cons_of_mem _ hy)
      have hnew : ∀ y ∈ findDependents current m, R y := fun y hy => hR current y hcur hy
      have hfold := bfsFold_inv R (findDependents current m) (seen, rest) h1 hrest hnew
      exact ih _ _ hfold.1 hfold.2 x hx

lemma bfsFold_nodup :
    ∀ (l : List String) (acc : List String × List String), acc.1.Nodup →
      (List.foldl bfsStep acc l).1.Nodup := by
  intro l
  induction l with
  | nil => intro acc h; exact h
  | cons d ds ih =>
    intro acc h
    simp only [List.foldl_cons]
    apply ih
    unfold bfsStep
    split
    · exact h
    · rename_i hd
      simp [List.nodup_append, h, hd]

lemma bfs_nodup (m : SystemMap) :
    ∀ (fuel : Nat) (seen queue : List String), seen.Nodup →
      (bfsDependentsAux m fuel seen queue).Nodup := by
  intro fuel
  induction fuel with
  | zero => intro seen queue h; rw [bfsDependentsAux]; exact h
  | succ fuel ih =>
    intro seen queue h
    cases queue with
    | nil => rw [bfsDependentsAux]; exact h
    | cons current rest =>
      rw [bfsDependentsAux]
      exact ih _ _ (bfsFold_nodup (findDependents current m) (seen, rest) h)

lemma fsdAux_unknown (m : SystemMap) (s : String) (hfind : findService m s = none) :
    ∀ (fuel : Nat) (visited : List String), (fsdAux m fuel s visited).1 = [] := by
  intro fuel visited
  cases fuel with
  | zero => rfl
  | succ fuel =>
    rw [fsdAux]
    by_cases hv : s ∈ visited
    · rw [if_pos hv]
    · rw [if_neg hv, hfind]

lemma findDependents_eq_nil (m : SystemMap) (s : String)
    (h : ∀ p ∈ m.services, s ∉ p.2.depends_on.getD []) : findDependents s m = [] := by
  unfold findDependents
  rw [List.filter_eq_nil_iff.mpr, List.map_nil]
  intro p hp
  simp [h p hp]

lemma bfs_nil_nil (m : SystemMap) : ∀ (fuel : Nat), bfsDependentsAux m fuel [] [] = [] := by
  intro fuel
  cases fuel with
  | zero => rfl
  | succ fuel => rfl

/-! ## Helper lemmas about the stable descending sort -/

lemma mem_insertByConfidence (h x : Hypothesis) :
    ∀ (l : List Hypothesis), x ∈ insertByConfidence h l ↔ x = h ∨ x ∈ l := by
  intro l
  induction l with
  | nil => simp [insertByConfidence]
  | cons y ys ih =>
    rw [insertByConfidence]
    split
    · rw [List.mem_cons, ih, List.mem_cons]
      tauto
    · rw [List.mem_cons]

lemma pairwise_insertByConfidence (h : Hypothesis) :
    ∀ (l : List Hypothesis),
      l.Pairwise (fun a b => b.confidence ≤ a.confidence) →
      (insertByConfidence h l).Pairwise (fun a b => b.confidence ≤ a.confidence) := by
  intro l
  induction l with
  | nil => intro _; simp [insertByConfidence]
  | cons y ys ih =>
    intro hp
    rw [List.pairwise_cons] at hp
    rw [insertByConfidence]
    split
    · rename_i hlt
      rw [List.pairwise_cons]
      refine ⟨?_, ih hp.2⟩
      intro b hb
      rcases (mem_insertByConfidence h b ys).mp hb with rfl | hbmem
      · exact le_of_lt hlt
      · exact hp.1 b hbmem
    · rename_i hge
      rw [not_lt] at hge
      rw [List.pairwise_cons]
      refine ⟨?_, List.pairwise_cons.mpr hp⟩
      intro b hb
      rcases List.mem_cons.mp hb with rfl | hbmem
      · exact hge
      · exact le_trans (hp.1 b hbmem) hge

lemma sortByConfidenceDesc_pairwise (l : List Hypothesis) :
    (sortByConfidenceDesc l).Pairwise (fun a b => b.confidence ≤ a.confidence) := by
  unfold sortByConfidenceDesc
  induction l with
  | nil => simp
  | cons h t ih =>
    rw [List.foldr_cons]
    exact pairwise_insertByConfidence h _ ih

lemma filter_insertByConfidence (c : Int) (h : Hypothesis) :
    ∀ (l : List Hypothesis),
      (insertByConfidence h l).filter (fun x => decide (x.confidence = c)) =
        ((h :: l).filter (fun x => decide (x.confidence = c))) := by
  intro l
  induction l with
  | nil => rfl
  | cons y ys ih =>
    rw [insertByConfidence]
    split
    · rename_i hlt
      by_cases hc : h.confidence = c
      · have hyc : ¬ (y.confidence = c) := by
          intro he
          rw [he, ← hc] at hlt
          exact lt_irrefl _ hlt
        simp [List.filter_cons, hc, hyc, ih]
      · simp [List.filter_cons, hc, ih]
    · rfl

lemma filter_sortByConfidenceDesc (c : Int) (l : List Hypothesis) :
    (sortByConfidenceDesc l).filter (fun x => decide (x.confidence = c)) =
      l.filter (fun x => decide (x.confidence = c)) := by
  unfold sortByConfidenceDesc
  induction l with
  | nil => rfl
  | cons h t ih =>
    rw [List.foldr_cons, filter_insertByConfidence c h _, List.filter_cons, List.filter_cons]
    by_cases hc : h.confidence = c
    · simp [hc, ih]
    · simp [hc, ih]

lemma length_insertByConfidence (h : Hypothesis) :
    ∀ (l : List Hypothesis), (insertByConfidence h l).length = l.length + 1 := by
  intro l
  induction l with
  | nil => rfl
  | cons y ys ih =>
    rw [insertByConfidence]
    split
    · simp [ih]
    · simp

lemma length_sortByConfidenceDesc (l : List Hypothesis) :
    (sortByConfidenceDesc l).length = l.length := by
  unfold sortByConfidenceDesc
  induction l with
  | nil => rfl
  | cons h t ih =>
    rw [List.foldr_cons, length_insertByConfidence, ih, List.length_cons]

/-! ## Concrete fixtures -/

/-- The two-node cyclic graph: A depends_on B and B depends_on A. -/
def cycleMap : SystemMap :=
  { services := [("A", { depends_on := some ["B"] }),
                 ("B", { depends_on := some ["A"] })] }

/-- One declared node A with a dangling reference to the undeclared id X. -/
def danglingMap : SystemMap :=
  { services := [("A", { depends_on := some ["X"] })] }

lemma danglingMap_edge_target {x y : String} (h : dependsEdge danglingMap x y) : y = "X" := by
  unfold dependsEdge at h
  by_cases hx : x = "A"
  · subst hx
    have hfind : findService danglingMap "A" = some { depends_on := some ["X"] } := by decide
    rw [hfind] at h
    simpa using h
  · have hnone : findService danglingMap x = none := by
      apply findService_eq_none
      simpa [danglingMap] using hx
    rw [hnone] at h
    exact h.elim

lemma reaches_danglingMap_target {x y : String} (h : Reaches danglingMap x y) : y = "X" := by
  induction h with
  | single he => exact danglingMap_edge_target he
  | head _ _ ih => exact ih

lemma no_cycle_danglingMap : ¬ Reaches danglingMap "A" "A" := by
  intro h
  exact absurd (reaches_danglingMap_target h) (by decide)

/-- An event carrying only low-severity signal (priority low, level info). -/
def lowInfoEvent : WebhookEvent :=
  { eventType := "CACHE_REFRESH"
    correlationId := some "txn-1"
    service := some "A"
    level := some Level.info
    priority := some Priority.low
    timestamp := none
    detailsService := none
    errorCode := none }

/-- A critical event whose declared service is A. -/
def criticalEvent : WebhookEvent :=
  { eventType := "SESSION_DROP"
    correlationId := some "txn-9"
    service := some "A"
    level := some Level.critical
    priority := some Priority.high
    timestamp := some "2025-01-01T00:00:00Z"
    detailsService := none
    errorCode := some "E42" }

/-! ## Claims -/

/-- C1 (counterexample): on the two-node cycle A depends_on B, B depends_on A,
the impact result for A contains A itself both in `dependencies` (A re-enters
through B's depends_on list before the visited-set check) and in
`allDependents` (the dependent BFS walks the cycle back to A), refuting the
claim that the affected service is never in any of the three sets even when
the graph contains a cycle through it. -/
theorem impact_self_on_cycle_cex :
    "A" ∈ (analyzeImpact "A" cycleMap).dependencies ∧
    "A" ∈ (analyzeImpact "A" cycleMap).allDependents := by decide

/-- C1 (amended): for every graph whose declared keys are unique and every
service id s such that the depends_on relation has no cycle through s
(`¬ Reaches m s s`), the impact result for s contains s in none of the three
sets; when a cycle through s exists, s can appear in `dependencies` and
`allDependents`. -/
theorem impact_excludes_self_of_no_cycle (m : SystemMap) (s : String)
    (hkeys : (m.services.map Prod.fst).Nodup) (hnc : ¬ Reaches m s s) :
    s ∉ (analyzeImpact s m).dependencies ∧
    s ∉ (analyzeImpact s m).directDependents ∧
    s ∉ (analyzeImpact s m).allDependents := by
  refine ⟨?_, ?_, ?_⟩
  · intro hmem
    exact hnc (fsdAux_mem_reaches m (fsdFuel m) s [] s hmem)
  · intro hmem
    exact hnc (Reaches.single (findDependents_edge m hkeys s s hmem))
  · intro hmem
    apply hnc
    have hdir : ∀ x ∈ findDependents s m, Reaches m x s := fun x hx =>
      Reaches.single (findDependents_edge m hkeys s x hx)
    exact bfs_inv m (fun x => Reaches m x s)
      (fun c x hc hx => Reaches.head (findDependents_edge m hkeys c x hx) hc)
      (bfsFuel m (findDependents s m)) _ _
      (fun x hx => hdir x (mem_jsSetDedup hx)) hdir s hmem

/-- C1 (witness): the amended theorem applied to a concrete acyclic graph. -/
theorem impact_excludes_self_of_no_cycle_witness :
    "A" ∉ (analyzeImpact "A" danglingMap).dependencies ∧
    "A" ∉ (analyzeImpact "A" danglingMap).directDependents ∧
    "A" ∉ (analyzeImpact "A" danglingMap).allDependents :=
  impact_excludes_self_of_no_cycle danglingMap "A" (by decide) no_cycle_danglingMap

/-- C2 (counterexample): on the cycle A depends_on B, B depends_on A, the
transitive dependency computation for A returns `["B", "A"]`, not the set
`{B}`: A itself is in the result. -/
theorem dependenciesOf_cycle_cex :
    findServiceDependencies "A" cycleMap = ["B", "A"] ∧
    "A" ∈ findServiceDependencies "A" cycleMap := by decide

/-- C2 (amended): on the two-node cycle the computation terminates, visits
each node once (the result is duplicate-free), and returns exactly
`["B", "A"]`: the set {A, B}, because A re-enters through B's direct
depends_on list before the visited-set guard, rather than {B}. -/
theorem dependenciesOf_cycle_amended :
    findServiceDependencies "A" cycleMap = ["B", "A"] ∧
    (findServiceDependencies "A" cycleMap).Nodup := by decide

/-- C3 (counterexample): id X is not declared in the graph `{A: [X]}`, yet the
impact computation for X returns non-empty dependent sets: the declared node A
referencing X is reported as a direct and transitive dependent. -/
theorem unknown_id_dangling_cex :
    "X" ∉ danglingMap.services.map Prod.fst ∧
    (analyzeImpact "X" danglingMap).directDependents = ["A"] ∧
    (analyzeImpact "X" danglingMap).allDependents = ["A"] ∧
    (analyzeImpact "X" danglingMap).dependencies = [] := by decide

/-- C3 (amended): for every graph and every id s that is not declared as a
node, the impact computation returns empty `dependencies` and (being a total
function) never fails; if s is moreover not referenced in any declared node's
depends_on list, the two dependent sets are empty as well.  When s appears as
a dangling reference, the referencing nodes are returned as its dependents. -/
theorem unknown_id_impact_empty (m : SystemMap) (s : String)
    (hkey : s ∉ m.services.map Prod.fst) :
    (analyzeImpact s m).dependencies = [] ∧
    ((∀ p ∈ m.services, s ∉ p.2.depends_on.getD []) →
      (analyzeImpact s m).directDependents = [] ∧
      (analyzeImpact s m).allDependents = []) := by
  have hnone : findService m s = none := findService_eq_none m s hkey
  constructor
  · exact fsdAux_unknown m s hnone (fsdFuel m) []
  · intro href
    have hdep : findDependents s m = [] := findDependents_eq_nil m s href
    constructor
    · exact hdep
    · show bfsDependentsAux m _ (jsSetDedup (findDependents s m)) (findDependents s m) = []
      rw [hdep]
      exact bfs_nil_nil m _

/-- C3 (witness): the amended theorem applied to the id C, absent from the
graph `{A: [X]}` both as a node and as a reference. -/
theorem unknown_id_impact_empty_witness :
    (analyzeImpact "C" danglingMap).dependencies = [] ∧
    (analyzeImpact "C" danglingMap).directDependents = [] ∧
    (analyzeImpact "C" danglingMap).allDependents = [] :=
  ⟨(unknown_id_impact_empty danglingMap "C" (by decide)).1,
   (unknown_id_impact_empty danglingMap "C" (by decide)).2 (by decide)⟩

/-- C4: a correlation group in which no event has priority high or level
error/critical (in particular one whose events are all priority low and level
info) is skipped: `processCorrelatedEvents` returns `none` without invoking
impact analysis or hypothesis generation, and no report is produced. -/
theorem skip_group_without_critical_signal (events : List WebhookEvent) (m : SystemMap)
    (environment : Option String) (genOutcome : Option GenResponse) (now : Nat) (tsNow : String)
    (h : ∀ e ∈ events, e.priority ≠ some Priority.high ∧
         e.level ≠ some Level.error ∧ e.level ≠ some Level.critical) :
    processCorrelatedEvents events m environment genOutcome now tsNow = none := by
  unfold processCorrelatedEvents
  have hnil : events.filter isCriticalEvent = [] := by
    rw [List.filter_eq_nil_iff]
    intro e he
    rcases h e he with ⟨h1, h2, h3⟩
    simp [isCriticalEvent, h1, h2, h3]
  rw [hnil]

/-- C4 (witness): a group of one low/info event is skipped. -/
theorem skip_group_without_critical_signal_witness :
    processCorrelatedEvents [lowInfoEvent] cycleMap none none 0 "t" = none :=
  skip_group_without_critical_signal [lowInfoEvent] cycleMap none none 0 "t" (by decide)

/-- C5: when the external generator call fails (`genOutcome = none`: network
error, timeout, or unparseable output), a group with a non-empty critical
subset still yields exactly one report, and its hypothesis list is exactly the
single fixed fallback hypothesis: title "Service Dependency Failure", the
fixed description, confidence 60, one synthetic evidence item of type log with
confidence 70, three fixed suggested actions, and an empty related-services
list. -/
theorem fallback_report_on_generator_failure (events : List WebhookEvent) (m : SystemMap)
    (environment : Option String) (now : Nat) (tsNow : String)
    (h : events.filter isCriticalEvent ≠ []) :
    ∃ r, processCorrelatedEvents events m environment none now tsNow = some r ∧
      r.hypotheses =
        [{ id := "hyp-" ++ toString now ++ "-0"
           title := "Service Dependency Failure"
           description := "The failure appears to be related to a service dependency issue based on the error pattern."
           confidence := 60
           evidence := [{ type := "log"
                          source := "Event Analysis"
                          detail := "Critical error detected in service communication"
                          confidence := 70 }]
           suggestedActions := ["Check service health endpoints",
                                "Review recent deployments",
                                "Examine service logs for connection errors"]
           relatedServices := [] }] := by
  unfold processCorrelatedEvents
  cases hf : events.filter isCriticalEvent with
  | nil => exact absurd hf h
  | cons first rest => exact ⟨_, rfl, rfl⟩

/-- C5 (witness): the fallback report for a concrete critical group. -/
theorem fallback_report_on_generator_failure_witness :
    ∃ r, processCorrelatedEvents [criticalEvent] cycleMap none none 7 "t" = some r ∧
      r.hypotheses =
        [{ id := "hyp-" ++ toString 7 ++ "-0"
           title := "Service Dependency Failure"
           description := "The failure appears to be related to a service dependency issue based on the error pattern."
           confidence := 60
           evidence := [{ type := "log"
                          source := "Event Analysis"
                          detail := "Critical error detected in service communication"
                          confidence := 70 }]
           suggestedActions := ["Check service health endpoints",
                                "Review recent deployments",
                                "Examine service logs for connection errors"]
           relatedServices := [] }] :=
  fallback_report_on_generator_failure [criticalEvent] cycleMap none 7 "t" (by decide)

/-- C6 (counterexample): a successful generator call whose well-formed
response contains zero hypotheses produces a report whose hypothesis list is
empty: the fallback only fires when the call fails, so the pipeline does not
always return at least one hypothesis. -/
theorem empty_success_empty_hypotheses_cex :
    (processCorrelatedEvents [criticalEvent] cycleMap none
        (some { hypotheses := some [] }) 0 "t").map AnalysisReport.hypotheses =
      some [] := by decide

/-- C6 (amended): the report's hypothesis list is non-empty whenever the
generator call fails (the fallback is returned) or the generator returns at
least one hypothesis; a successful well-formed response with an empty (or
absent) hypothesis array yields a report with an empty hypothesis list. -/
theorem hypotheses_nonempty_unless_empty_success (event : WebhookEvent) (ctx : AnalysisContext)
    (genOutcome : Option GenResponse) (now : Nat) (tsNow : String)
    (h : genOutcome = none ∨ ∃ resp, genOutcome = some resp ∧ resp.hypotheses.getD [] ≠ []) :
    (analyzeEvent event ctx genOutcome now tsNow).hypotheses ≠ [] := by
  show sortByConfidenceDesc (generateHypotheses now genOutcome) ≠ []
  intro hemp
  have hlen := length_sortByConfidenceDesc (generateHypotheses now genOutcome)
  rw [hemp] at hlen
  simp only [List.length_nil] at hlen
  rcases h with rfl | ⟨resp, rfl, hne⟩
  · simp [generateHypotheses, getFallbackHypotheses] at hlen
  · simp only [generateHypotheses] at hlen
    rw [List.length_mapIdx] at hlen
    exact hne (List.length_eq_zero.mp hlen.symm)

/-- C6 (witness): the amended theorem at a failing generator call. -/
theorem hypotheses_nonempty_witness :
    (analyzeEvent criticalEvent
        { relatedEvents := [criticalEvent], systemMap := cycleMap, environment := none }
        none 3 "t").hypotheses ≠ [] :=
  hypotheses_nonempty_unless_empty_success criticalEvent
    { relatedEvents := [criticalEvent], systemMap := cycleMap, environment := none }
    none 3 "t" (Or.inl rfl)

/-- C7: in every returned report the hypothesis list is sorted by confidence
in descending order, and for every confidence value the hypotheses carrying it
appear in the same relative order as in the parsed generator output (the JS
sort is stable and is applied in place to the array the report aliases). -/
theorem report_hypotheses_sorted_stable (event : WebhookEvent) (ctx : AnalysisContext)
    (genOutcome : Option GenResponse) (now : Nat) (tsNow : String) :
    ((analyzeEvent event ctx genOutcome now tsNow).hypotheses).Pairwise
        (fun a b => b.confidence ≤ a.confidence) ∧
    ∀ c : Int,
      ((analyzeEvent event ctx genOutcome now tsNow).hypotheses).filter
          (fun x => decide (x.confidence = c)) =
        (generateHypotheses now genOutcome).filter (fun x => decide (x.confidence = c)) :=
  ⟨sortByConfidenceDesc_pairwise _, fun c => filter_sortByConfidenceDesc c _⟩

/-- C8 (counterexample): on the cyclic graph A depends_on B, B depends_on A,
the report for a critical event on A lists the affected services as
`["A", "B", "A"]`: the primary service reappears among its own transitive
dependents and is not deduplicated, so the list has a duplicate. -/
theorem affected_services_dup_cex :
    (processCorrelatedEvents [criticalEvent] cycleMap none none 0 "t").map
        AnalysisReport.affectedServices = some ["A", "B", "A"] ∧
    ¬ (["A", "B", "A"] : List String).Nodup := by decide

/-- C8 (amended): the affected-services list of every report is exactly the
primary affected service followed by the transitive dependents in BFS
discovery order; the tail contains no duplicates, but no deduplication is
applied between the primary and the tail, so the whole list is duplicate-free
exactly when the primary is not among its own transitive dependents (which
fails on cyclic graphs). -/
theorem affected_services_structure (event : WebhookEvent) (ctx : AnalysisContext)
    (genOutcome : Option GenResponse) (now : Nat) (tsNow : String) :
    (analyzeEvent event ctx genOutcome now tsNow).affectedServices =
      jsOrStr event.service (jsOrStr event.detailsService "Unknown") ::
        (analyzeImpact (jsOrStr event.service (jsOrStr event.detailsService "Unknown"))
          ctx.systemMap).allDependents ∧
    (analyzeImpact (jsOrStr event.service (jsOrStr event.detailsService "Unknown"))
        ctx.systemMap).allDependents.Nodup ∧
    (jsOrStr event.service (jsOrStr event.detailsService "Unknown") ∉
        (analyzeImpact (jsOrStr event.service (jsOrStr event.detailsService "Unknown"))
          ctx.systemMap).allDependents →
      (analyzeEvent event ctx genOutcome now tsNow).affectedServices.Nodup) := by
  refine ⟨rfl, ?_, ?_⟩
  · exact bfs_nodup _ _ _ _ (jsSetDedup_nodup _)
  · intro hnotmem
    show (_ :: _).Nodup
    rw [List.nodup_cons]
    exact ⟨hnotmem, bfs_nodup _ _ _ _ (jsSetDedup_nodup _)⟩

/-- C8 (witness): on an acyclic graph the full affected-services list is
duplicate-free. -/
theorem affected_services_structure_witness :
    (analyzeEvent criticalEvent
        { relatedEvents := [criticalEvent], systemMap := danglingMap, environment := none }
        none 0 "t").affectedServices.Nodup :=
  (affected_services_structure criticalEvent
    { relatedEvents := [criticalEvent], systemMap := danglingMap, environment := none }
    none 0 "t").2.2 (by decide)

/-- C9: when the triggering event has no correlation id (absent or empty
string), the report's correlationId is the literal "unknown", while the
correlator keys the same event's group as "uncorrelated"; the two labels
differ. -/
theorem missing_correlation_id_keys (e : WebhookEvent) (ctx : AnalysisContext)
    (genOutcome : Option GenResponse) (now : Nat) (tsNow : String)
    (h : e.correlationId = none ∨ e.correlationId = some "") :
    (analyzeEvent e ctx genOutcome now tsNow).correlationId = "unknown" ∧
    groupCorrelationKey e = "uncorrelated" ∧
    (analyzeEvent e ctx genOutcome now tsNow).correlationId ≠ groupCorrelationKey e := by
  have hu : jsOrStr e.correlationId "unknown" = "unknown" := by
    rcases h with h | h <;> rw [h] <;> rfl
  have hg : jsOrStr e.correlationId "uncorrelated" = "uncorrelated" := by
    rcases h with h | h <;> rw [h] <;> rfl
  refine ⟨hu, hg, ?_⟩
  show jsOrStr e.correlationId "unknown" ≠ jsOrStr e.correlationId "uncorrelated"
  rw [hu, hg]
  decide

/-- An event with no correlation id at all. -/
def uncorrelatedEvent : WebhookEvent :=
  { criticalEvent with correlationId := none }

/-- C9 (witness): the two labels for a concrete event without correlation id. -/
theorem missing_correlation_id_keys_witness :
    (analyzeEvent uncorrelatedEvent
        { relatedEvents := [uncorrelatedEvent], systemMap := cycleMap, environment := none }
        none 0 "t").correlationId = "unknown" ∧
    groupCorrelationKey uncorrelatedEvent = "uncorrelated" ∧
    (analyzeEvent uncorrelatedEvent
        { relatedEvents := [uncorrelatedEvent], systemMap := cycleMap, environment := none }
        none 0 "t").correlationId ≠ groupCorrelationKey uncorrelatedEvent :=
  missing_correlation_id_keys uncorrelatedEvent
    { relatedEvents := [uncorrelatedEvent], systemMap := cycleMap, environment := none }
    none 0 "t" (Or.inl rfl)

/-- C10: the generator-output parser replaces any falsy confidence — an
explicit 0 as well as an absent field — with the default 50, for hypotheses
and for evidence items alike, so no parsed hypothesis or evidence item ever
carries confidence 0. -/
theorem falsy_confidence_defaults_to_50 (now index : Nat) (h : RawHypothesis)
    (e : RawEvidence) :
    (parseHypothesis now index { h with confidence := some 0 }).confidence = 50 ∧
    (parseEvidence { e with confidence := some 0 }).confidence = 50 ∧
    (parseHypothesis now index h).confidence ≠ 0 ∧
    (parseEvidence e).confidence ≠ 0 ∧
    (∀ ev ∈ (parseHypothesis now index h).evidence, ev.confidence ≠ 0) := by
  have hj : ∀ v : Option Int, jsOrInt v 50 ≠ 0 := by
    intro v
    cases v with
    | none => decide
    | some n =>
      show (if n = 0 then (50 : Int) else n) ≠ 0
      split
      · decide
      · assumption
  refine ⟨rfl, rfl, hj _, hj _, ?_⟩
  intro ev hev
  rcases List.mem_map.mp hev with ⟨raw, _, rfl⟩
  exact hj raw.confidence

end TracePulse
